import Mathlib

/-!
A shallow embedding of the Movie-Reservation service (src/app/main.py,
src/app/crud.py, src/app/models.py) in Lean 4.

The relational store (SQLAlchemy models) is embedded as lists of rows; the
Redis hold index is embedded as a list of keyed entries carrying an absolute
expiry instant, with time passed explicitly as an integer `now` (a Redis key
set with `setex key ttl v` at instant `t` is live while `now < t + ttl`).
Surrogate autoincrement ids of `booked_seats` rows are omitted (nothing reads
them); reservation and showtime ids are modelled with explicit counters.
The database uniqueness constraint `uq_showtime_seat` on
`booked_seats(showtime_id, seat_id)` (models.py lines 85-87) is embedded as
the all-or-nothing success condition of the insert batch in
`confirm_reservation`.
-/

namespace MovieRes

/-- Rows of the `seats` table (models.py, class Seat). -/
structure Seat where
  id : Nat
  auditorium_id : Nat
  row_label : String
  seat_number : Nat
  seat_type : String
  price_modifier : Int
deriving Repr, DecidableEq

/-- Rows of the `showtimes` table (models.py, class Showtime). -/
structure Showtime where
  id : Nat
  movie_id : Nat
  auditorium_id : Nat
  starts_at : Int
  ends_at : Int
  base_price : Int
deriving Repr, DecidableEq

/-- Rows of the `reservations` table (models.py, class Reservation). -/
structure Reservation where
  id : Nat
  user_id : Option Nat
  showtime_id : Nat
  status : String
  total_price : Int
  expires_at : Option Int
deriving Repr, DecidableEq

/-- Rows of the `booked_seats` table (models.py, class BookedSeat); the
autoincrement surrogate `id` column is omitted. -/
structure BookedSeat where
  showtime_id : Nat
  seat_id : Nat
  reservation_id : Nat
deriving Repr, DecidableEq

/-- One Redis entry written by `setex('hold:{showtime}:{seat}', ttl, rid)`:
the key is the pair (showtime_id, seat_id), the value the reservation id,
and `expires_at` the absolute instant at which the TTL lapses. -/
structure HoldEntry where
  showtime_id : Nat
  seat_id : Nat
  value : Nat
  expires_at : Int
deriving Repr, DecidableEq

/-- The combined state of the durable store and the hold index. -/
structure St where
  seats : List Seat
  showtimes : List Showtime
  reservations : List Reservation
  booked_seats : List BookedSeat
  holds : List HoldEntry
  nextReservationId : Nat
  nextShowtimeId : Nat
deriving Repr, DecidableEq

/-- Structured failures raised by the endpoints (HTTPException details in
main.py and the 409 of the showtime endpoints). -/
inductive ApiError where
  | invalidSeatSelection
  | seatsAlreadyBooked
  | seatsAlreadyHeld
  | reservationNotFound
  | holdExpired
  | seatConflict
deriving Repr, DecidableEq

/-- The uniqueness-constraint key of a `booked_seats` row. -/
def bsKey (b : BookedSeat) : Nat × Nat := (b.showtime_id, b.seat_id)

/-- The Redis key of a hold entry. -/
def holdKey (h : HoldEntry) : Nat × Nat := (h.showtime_id, h.seat_id)

/-- Liveness of a hold entry at instant `now`: Redis keeps a key set with
TTL `ttl` at instant `t` alive while `now < t + ttl`. -/
def liveAt (now : Int) (h : HoldEntry) : Bool := now < h.expires_at

/-- Redis `GET hold:{sh}:{sid}`: the value of the live entry with that key,
or none. -/
def redisGet (holds : List HoldEntry) (now : Int) (sh sid : Nat) : Option Nat :=
  (holds.find? (fun h => h.showtime_id = sh && h.seat_id = sid && liveAt now h)).map
    (fun h => h.value)

/-- Redis `SETEX hold:{sh}:{sid} ttl v` at instant `now`: replaces any entry
under that key (Redis keys are unique) with a fresh one expiring at
`now + ttl`. -/
def redisSetex (holds : List HoldEntry) (now : Int) (sh sid : Nat) (ttl : Int)
    (v : Nat) : List HoldEntry :=
  { showtime_id := sh, seat_id := sid, value := v, expires_at := now + ttl } ::
    holds.filter (fun h => !(h.showtime_id = sh && h.seat_id = sid))

/-- Redis `DEL hold:{sh}:{sid}`. -/
def redisDelete (holds : List HoldEntry) (sh sid : Nat) : List HoldEntry :=
  holds.filter (fun h => !(h.showtime_id = sh && h.seat_id = sid))

/-- Seat ids with a booked row for the showtime (main.py lines 75-76). -/
def bookedSeatIds (st : St) (sh : Nat) : List Nat :=
  (st.booked_seats.filter (fun b => b.showtime_id = sh)).map (fun b => b.seat_id)

/-- Seat ids parsed out of the live Redis keys matching `hold:{sh}:*`
(main.py lines 78-81). -/
def heldSeatIds (st : St) (now : Int) (sh : Nat) : List Nat :=
  (st.holds.filter (fun h => h.showtime_id = sh && liveAt now h)).map
    (fun h => h.seat_id)

/-- One element of the response of GET /showtimes/{id}/seats
(schemas.SeatStatusOut). -/
structure SeatStatusOut where
  id : Nat
  row_label : String
  seat_number : Nat
  seat_type : String
  status : String
deriving Repr, DecidableEq

/-- GET /showtimes/{showtime_id}/seats (main.py, get_seats, lines 70-97).
Queries ALL rows of the seats table (line 73 has no auditorium filter),
classifies each: booked wins, then held, then available. Read-only: the
returned state is the input state. -/
def get_seats (st : St) (now : Int) (showtime_id : Nat) :
    List SeatStatusOut × St :=
  (st.seats.map (fun s =>
    { id := s.id
      row_label := s.row_label
      seat_number := s.seat_number
      seat_type := s.seat_type
      status :=
        if s.id ∈ bookedSeatIds st showtime_id then "booked"
        else if s.id ∈ heldSeatIds st now showtime_id then "held"
        else "available" }), st)

/-- POST /showtimes/{showtime_id}/holds (main.py, hold_seats, lines 100-148).
`now` is `datetime.utcnow()` and `ttl` is `settings.HOLD_TTL_SECONDS`
(default 600). -/
def hold_seats (st : St) (now ttl : Int) (showtime_id : Nat)
    (seat_ids : List Nat) : Except ApiError (Nat × Int) × St :=
  let seats := st.seats.filter (fun s => s.id ∈ seat_ids)
  if seats.length ≠ seat_ids.length then
    (Except.error ApiError.invalidSeatSelection, st)
  else
    let booked := st.booked_seats.filter
      (fun b => b.showtime_id = showtime_id && b.seat_id ∈ seat_ids)
    if booked ≠ [] then (Except.error ApiError.seatsAlreadyBooked, st)
    else if seat_ids.any
        (fun sid => (redisGet st.holds now showtime_id sid).isSome) then
      (Except.error ApiError.seatsAlreadyHeld, st)
    else
      let rid := st.nextReservationId
      let resv : Reservation :=
        { id := rid, user_id := none, showtime_id := showtime_id,
          status := "held", total_price := 0, expires_at := some (now + ttl) }
      let holds := seat_ids.foldl
        (fun hs sid => redisSetex hs now showtime_id sid ttl rid) st.holds
      (Except.ok (rid, now + ttl),
       { st with
          reservations := st.reservations ++ [resv]
          holds := holds
          nextReservationId := rid + 1 })

/-- Seat ids of the live Redis entries under the reservation's showtime whose
value equals the reservation id (main.py lines 163-167: `keys` then
`get(k) == str(reservation_id)`). -/
def heldSeatsOf (st : St) (now : Int) (sh rid : Nat) : List Nat :=
  (st.holds.filter
    (fun h => h.showtime_id = sh && liveAt now h && h.value = rid)).map
      (fun h => h.seat_id)

/-- Success condition of the all-or-nothing insert batch in
confirm_reservation (main.py lines 173-185): the commit succeeds exactly
when the new rows violate `uq_showtime_seat` neither against the existing
rows nor among themselves; otherwise the whole transaction rolls back. -/
def insertOK (old new : List BookedSeat) : Bool :=
  new.all (fun b => !(old.any (fun o => bsKey o = bsKey b)))
    && ((new.map bsKey).Nodup : Bool)

/-- POST /reservations/{reservation_id}/confirm (main.py,
confirm_reservation, lines 151-192). -/
def confirm_reservation (st : St) (now : Int) (reservation_id : Nat) :
    Except ApiError (String × Nat) × St :=
  match st.reservations.find?
      (fun r => r.id = reservation_id && r.status = "held") with
  | none => (Except.error ApiError.reservationNotFound, st)
  | some resv =>
    let held_seats := heldSeatsOf st now resv.showtime_id reservation_id
    if held_seats = [] then (Except.error ApiError.holdExpired, st)
    else
      let newRows := held_seats.map (fun sid =>
        { showtime_id := resv.showtime_id, seat_id := sid,
          reservation_id := reservation_id : BookedSeat })
      if insertOK st.booked_seats newRows then
        (Except.ok ("confirmed", reservation_id),
         { st with
            booked_seats := st.booked_seats ++ newRows
            reservations := st.reservations.map (fun r =>
              if r.id = reservation_id then { r with status := "confirmed" }
              else r)
            holds := st.holds.filter (fun h =>
              !(h.showtime_id = resv.showtime_id && h.seat_id ∈ held_seats)) })
      else (Except.error ApiError.seatConflict, st)

/-- Creation payload of a showtime (schemas.ShowtimeCreate). -/
structure ShowtimeCreate where
  movie_id : Nat
  auditorium_id : Nat
  starts_at : Int
  ends_at : Int
  base_price : Int
deriving Repr, DecidableEq

/-- Overlap test of crud.create_showtime (crud.py lines 143-147): same
auditorium, `starts_at < new.ends_at` and `ends_at > new.starts_at`. -/
def overlapsReq (s : Showtime) (q : ShowtimeCreate) : Bool :=
  s.auditorium_id = q.auditorium_id
    && s.starts_at < q.ends_at && s.ends_at > q.starts_at

/-- crud.create_showtime (crud.py lines 141-156): reject (returning none)
when any existing showtime overlaps, else append the new row. -/
def create_showtime (st : St) (q : ShowtimeCreate) : Option Showtime × St :=
  if st.showtimes.any (fun s => overlapsReq s q) then (none, st)
  else
    let s : Showtime :=
      { id := st.nextShowtimeId, movie_id := q.movie_id,
        auditorium_id := q.auditorium_id, starts_at := q.starts_at,
        ends_at := q.ends_at, base_price := q.base_price }
    (some s,
     { st with showtimes := st.showtimes ++ [s],
               nextShowtimeId := st.nextShowtimeId + 1 })

/-- crud.update_showtime (crud.py lines 167-187): none when the id is
unknown, none when any OTHER showtime overlaps, else overwrite the row's
payload fields in place. -/
def update_showtime (st : St) (showtime_id : Nat) (q : ShowtimeCreate) :
    Option Showtime × St :=
  match st.showtimes.find? (fun s => s.id = showtime_id) with
  | none => (none, st)
  | some _ =>
    if st.showtimes.any (fun s => s.id ≠ showtime_id && overlapsReq s q) then
      (none, st)
    else
      let upd := fun (s : Showtime) =>
        if s.id = showtime_id then
          { s with movie_id := q.movie_id, auditorium_id := q.auditorium_id,
                   starts_at := q.starts_at, ends_at := q.ends_at,
                   base_price := q.base_price }
        else s
      (some
        { id := showtime_id, movie_id := q.movie_id,
          auditorium_id := q.auditorium_id, starts_at := q.starts_at,
          ends_at := q.ends_at, base_price := q.base_price },
       { st with showtimes := st.showtimes.map upd })

/-- Pairwise absence of overlapping [start, end) intervals within the same
auditorium (spec section 3, Showtime invariant), with the overlap test
exactly as written in crud.py lines 143-147. -/
def ShowtimesOverlapFree (l : List Showtime) : Prop :=
  l.Pairwise (fun a b => a.auditorium_id = b.auditorium_id →
    ¬(a.starts_at < b.ends_at ∧ a.ends_at > b.starts_at))

/-- The no-double-booking invariant: the uniqueness-constraint keys of the
booked_seats table are pairwise distinct. -/
def UniqueBooked (st : St) : Prop := (st.booked_seats.map bsKey).Nodup

/-- One service-level operation of the system, as a relation from pre-state
to post-state, each constructor quantifying over the operation's inputs and
over the wall-clock instant at which it runs. -/
inductive Step : St → St → Prop where
  | view : ∀ st now sh, Step st (get_seats st now sh).2
  | hold : ∀ st now ttl sh ids, Step st (hold_seats st now ttl sh ids).2
  | confirm : ∀ st now rid, Step st (confirm_reservation st now rid).2
  | screate : ∀ st q, Step st (create_showtime st q).2
  | supdate : ∀ st sid q, Step st (update_showtime st sid q).2

/-- Initial states: an arbitrarily seeded catalog with no reservations,
booked rows or holds. -/
def initialSt (seats : List Seat) (showtimes : List Showtime) : St :=
  { seats := seats, showtimes := showtimes, reservations := [],
    booked_seats := [], holds := [], nextReservationId := 1,
    nextShowtimeId := 1 }

/-- States reachable from a seeded catalog by any finite sequence of
operations. -/
inductive Reachable : St → Prop where
  | init : ∀ seats showtimes, Reachable (initialSt seats showtimes)
  | step : ∀ {st st'}, Reachable st → Step st st' → Reachable st'

/-! Concrete fixture states used by witnesses and counterexamples: two
auditoriums, seats 1 and 2 in auditorium 1, seat 10 in auditorium 2, and
showtime 5 playing in auditorium 1. -/

/-- Fixture seat 1, auditorium 1. -/
def seatA : Seat :=
  { id := 1, auditorium_id := 1, row_label := "A", seat_number := 1,
    seat_type := "regular", price_modifier := 0 }

/-- Fixture seat 2, auditorium 1. -/
def seatB : Seat :=
  { id := 2, auditorium_id := 1, row_label := "A", seat_number := 2,
    seat_type := "regular", price_modifier := 0 }

/-- Fixture seat 10, auditorium 2. -/
def seatC : Seat :=
  { id := 10, auditorium_id := 2, row_label := "A", seat_number := 1,
    seat_type := "regular", price_modifier := 0 }

/-- Fixture showtime 5 in auditorium 1. -/
def show1 : Showtime :=
  { id := 5, movie_id := 1, auditorium_id := 1, starts_at := 0,
    ends_at := 100, base_price := 10 }

/-- Fixture state: catalog seeded, no reservations, bookings or holds. -/
def st0 : St := initialSt [seatA, seatB, seatC] [show1]

/-- Fixture state after holding seats 1 and 2 of showtime 5 at instant 0. -/
def st1 : St := (hold_seats st0 0 600 5 [1, 2]).2

/-- Fixture state after confirming reservation 1 at instant 10. -/
def st2 : St := (confirm_reservation st1 10 1).2

/-! Helper lemmas about the seat-count check of hold_seats (main.py lines
109-111): relating `len(seats) != len(seat_ids)` to existence, duplication
and the primary-key uniqueness of the seats table. -/

/-- Ids of the seat rows matching a filter are distinct when the seats
table's primary key is. -/
lemma nodup_filter_map_id {seats : List Seat} (p : Seat → Bool)
    (hn : (seats.map Seat.id).Nodup) :
    (((seats.filter p).map Seat.id)).Nodup :=
  List.Nodup.sublist (List.Sublist.map Seat.id (List.filter_sublist seats)) hn

/-- When some requested id names no seat row, strictly fewer rows than
requested ids are fetched. -/
lemma seats_filter_length_lt_of_missing {seats : List Seat} {ids : List Nat}
    {i : Nat} (hn : (seats.map Seat.id).Nodup) (hi : i ∈ ids)
    (hmiss : ∀ s ∈ seats, s.id ≠ i) :
    (seats.filter (fun s => s.id ∈ ids)).length < ids.length := by
  set lf := (seats.filter (fun s => s.id ∈ ids)).map Seat.id with hlf
  have hnf : lf.Nodup := nodup_filter_map_id _ hn
  have hsub : lf.toFinset ⊆ ids.toFinset.erase i := by
    intro x hx
    simp only [hlf, List.mem_toFinset, List.mem_map] at hx
    obtain ⟨s, hs, rfl⟩ := hx
    have hs' := List.mem_filter.mp hs
    have hmem : s.id ∈ ids := by simpa using hs'.2
    exact Finset.mem_erase.mpr ⟨hmiss s hs'.1, List.mem_toFinset.mpr hmem⟩
  have h1 : lf.length = lf.toFinset.card :=
    (List.toFinset_card_of_nodup hnf).symm
  have h2 : lf.toFinset.card ≤ (ids.toFinset.erase i).card :=
    Finset.card_le_card hsub
  have h3 : (ids.toFinset.erase i).card < ids.toFinset.card :=
    Finset.card_erase_lt_of_mem (List.mem_toFinset.mpr hi)
  have h4 : ids.toFinset.card ≤ ids.length := List.toFinset_card_le ids
  have hlen : lf.length = (seats.filter (fun s => s.id ∈ ids)).length :=
    List.length_map _ _
  omega

/-- When the request repeats an id, strictly fewer rows than requested ids
are fetched. -/
lemma seats_filter_length_lt_of_dup {seats : List Seat} {ids : List Nat}
    (hn : (seats.map Seat.id).Nodup) (hdup : ¬ ids.Nodup) :
    (seats.filter (fun s => s.id ∈ ids)).length < ids.length := by
  set lf := (seats.filter (fun s => s.id ∈ ids)).map Seat.id with hlf
  have hnf : lf.Nodup := nodup_filter_map_id _ hn
  have hsub : lf.toFinset ⊆ ids.toFinset := by
    intro x hx
    simp only [hlf, List.mem_toFinset, List.mem_map] at hx
    obtain ⟨s, hs, rfl⟩ := hx
    have hs' := List.mem_filter.mp hs
    exact List.mem_toFinset.mpr (by simpa using hs'.2)
  have h1 : lf.length = lf.toFinset.card :=
    (List.toFinset_card_of_nodup hnf).symm
  have h2 : lf.toFinset.card ≤ ids.toFinset.card := Finset.card_le_card hsub
  have h3 : ids.toFinset.card < ids.length := by
    have hc : ids.toFinset.card = ids.dedup.length := List.card_toFinset ids
    have hsl : ids.dedup.Sublist ids := ids.dedup_sublist
    have hle : ids.dedup.length ≤ ids.length := hsl.length_le
    rcases lt_or_eq_of_le hle with h | h
    · omega
    · exact absurd (hsl.eq_of_length h ▸ ids.nodup_dedup) hdup
  have hlen : lf.length = (seats.filter (fun s => s.id ∈ ids)).length :=
    List.length_map _ _
  omega

/-- When the request has no repeats and every id names a seat row, exactly
as many rows as requested ids are fetched. -/
lemma seats_filter_length_eq {seats : List Seat} {ids : List Nat}
    (hn : (seats.map Seat.id).Nodup) (hids : ids.Nodup)
    (hall : ∀ i ∈ ids, ∃ s ∈ seats, s.id = i) :
    (seats.filter (fun s => s.id ∈ ids)).length = ids.length := by
  set lf := (seats.filter (fun s => s.id ∈ ids)).map Seat.id with hlf
  have hnf : lf.Nodup := nodup_filter_map_id _ hn
  have hset : lf.toFinset = ids.toFinset := by
    apply Finset.Subset.antisymm
    · intro x hx
      simp only [hlf, List.mem_toFinset, List.mem_map] at hx
      obtain ⟨s, hs, rfl⟩ := hx
      have hs' := List.mem_filter.mp hs
      exact List.mem_toFinset.mpr (by simpa using hs'.2)
    · intro x hx
      obtain ⟨s, hs, rfl⟩ := hall x (List.mem_toFinset.mp hx)
      refine List.mem_toFinset.mpr (List.mem_map.mpr ⟨s, ?_, rfl⟩)
      exact List.mem_filter.mpr ⟨hs, by simpa using List.mem_toFinset.mp hx⟩
  have h1 : lf.length = lf.toFinset.card :=
    (List.toFinset_card_of_nodup hnf).symm
  rw [hset] at h1
  have h2 : ids.toFinset.card = ids.length := List.toFinset_card_of_nodup hids
  have hlen : lf.length = (seats.filter (fun s => s.id ∈ ids)).length :=
    List.length_map _ _
  omega

end MovieRes
namespace MovieRes

lemma find?_filter_of_imp {α : Type} (l : List α) (p q : α → Bool)
    (h : ∀ x, p x = true → q x = true) : (l.filter q).find? p = l.find? p := by
  induction l with
  | nil => rfl
  | cons a t ih =>
    by_cases hq : q a = true
    · by_cases hp : p a = true
      · simp [List.filter_cons, hq, List.find?_cons, hp]
      · simp [List.filter_cons, hq, List.find?_cons, hp, ih]
    · have hp : ¬ p a = true := fun hpa => hq (h a hpa)
      simp [List.filter_cons, hq, List.find?_cons, hp, ih]

lemma redisGet_setex_eq (hs : List HoldEntry) (now now2 ttl : Int)
    (sh sid v : Nat) :
    redisGet (redisSetex hs now sh sid ttl v) now2 sh sid =
      if now2 < now + ttl then some v else none := by
  by_cases h : now2 < now + ttl
  · unfold redisGet redisSetex
    rw [List.find?_cons_of_pos]
    · simp [h]
    · simp [liveAt, h]
  · unfold redisGet redisSetex
    rw [List.find?_cons_of_neg]
    · have hnone : (hs.filter fun x => !(x.showtime_id = sh && x.seat_id = sid)).find?
          (fun x => x.showtime_id = sh && x.seat_id = sid && liveAt now2 x) = none := by
        apply List.find?_eq_none.mpr
        intro x hx
        have h2 := (List.mem_filter.mp hx).2
        simp only [Bool.not_eq_true', Bool.and_eq_false_iff, decide_eq_false_iff_not] at h2
        simp only [Bool.and_eq_true, decide_eq_true_eq, not_and]
        tauto
      rw [hnone]
      simp [h]
    · simp [liveAt, h]

lemma redisGet_setex_ne (hs : List HoldEntry) (now now2 ttl : Int)
    (sh sid sh2 i v : Nat) (hne : ¬(sh2 = sh ∧ i = sid)) :
    redisGet (redisSetex hs now sh sid ttl v) now2 sh2 i =
      redisGet hs now2 sh2 i := by
  unfold redisGet redisSetex
  rw [List.find?_cons_of_neg]
  · rw [find?_filter_of_imp]
    intro x hx
    simp only [Bool.and_eq_true, decide_eq_true_eq] at hx
    simp only [Bool.not_eq_true', Bool.and_eq_false_iff, decide_eq_false_iff_not]
    by_contra hcon
    push_neg at hcon
    have e1 : sh2 = sh := by rw [← hx.1.1, hcon.1]
    have e2 : i = sid := by rw [← hx.1.2, hcon.2]
    exact hne ⟨e1, e2⟩
  · intro hcon
    simp only [Bool.and_eq_true, decide_eq_true_eq] at hcon
    exact hne ⟨hcon.1.1.symm, hcon.1.2.symm⟩

lemma redisGet_foldl_setex (ids : List Nat) (hs : List HoldEntry)
    (now now2 ttl : Int) (sh v i : Nat) :
    redisGet (ids.foldl (fun a sid => redisSetex a now sh sid ttl v) hs)
        now2 sh i =
      if i ∈ ids then (if now2 < now + ttl then some v else none)
      else redisGet hs now2 sh i := by
  induction ids generalizing hs with
  | nil => simp
  | cons j t ih =>
    simp only [List.foldl_cons]
    rw [ih]
    by_cases hm : i ∈ t
    · simp [hm]
    · by_cases hij : i = j
      · subst hij
        simp [hm, redisGet_setex_eq]
      · have : ¬ (sh = sh ∧ i = j) := fun hc => hij hc.2
        simp [hm, hij, redisGet_setex_ne hs now now2 ttl sh j sh i v this]

lemma filter_key_setex_eq (hs : List HoldEntry) (now ttl : Int)
    (sh sid v : Nat) :
    ((redisSetex hs now sh sid ttl v).filter
        (fun h => h.showtime_id = sh && h.seat_id = sid)) =
      [{ showtime_id := sh, seat_id := sid, value := v,
         expires_at := now + ttl }] := by
  unfold redisSetex
  rw [List.filter_cons_of_pos (by simp)]
  rw [List.filter_filter]
  have : ∀ h : HoldEntry,
      ((h.showtime_id = sh && h.seat_id = sid)
        && !(h.showtime_id = sh && h.seat_id = sid)) = false := by
    intro h
    cases hb : (decide (h.showtime_id = sh) && decide (h.seat_id = sid)) <;> simp [hb]
  simp only [this, List.filter_false]

lemma filter_key_setex_ne (hs : List HoldEntry) (now ttl : Int)
    (sh sid i v : Nat) (hne : i ≠ sid) :
    ((redisSetex hs now sh sid ttl v).filter
        (fun h => h.showtime_id = sh && h.seat_id = i)) =
      hs.filter (fun h => h.showtime_id = sh && h.seat_id = i) := by
  unfold redisSetex
  rw [List.filter_cons_of_neg (by simp [Ne.symm hne])]
  rw [List.filter_filter]
  apply List.filter_congr
  intro h _
  cases h1 : decide (h.showtime_id = sh) <;> cases h2 : decide (h.seat_id = i) <;>
    simp_all [decide_eq_true_eq]

lemma filter_key_foldl_setex (ids : List Nat) (hs : List HoldEntry)
    (now ttl : Int) (sh v i : Nat) :
    ((ids.foldl (fun a sid => redisSetex a now sh sid ttl v) hs).filter
        (fun h => h.showtime_id = sh && h.seat_id = i)) =
      if i ∈ ids then
        [{ showtime_id := sh, seat_id := i, value := v,
           expires_at := now + ttl }]
      else hs.filter (fun h => h.showtime_id = sh && h.seat_id = i) := by
  induction ids generalizing hs with
  | nil => simp
  | cons j t ih =>
    simp only [List.foldl_cons]
    rw [ih]
    by_cases hm : i ∈ t
    · simp [hm]
    · by_cases hij : i = j
      · subst hij
        simp [hm, filter_key_setex_eq]
      · simp [hm, hij, filter_key_setex_ne hs now ttl sh j i v hij]

/-! Membership characterizations of the two id sets built by get_seats. -/

/-- Membership in the booked set of a showtime, semantically. -/
lemma mem_bookedSeatIds {st : St} {sh i : Nat} :
    i ∈ bookedSeatIds st sh ↔
      ∃ b ∈ st.booked_seats, b.showtime_id = sh ∧ b.seat_id = i := by
  simp only [bookedSeatIds, List.mem_map, List.mem_filter, decide_eq_true_eq]
  tauto

/-- Membership in the live held set of a showtime, semantically. -/
lemma mem_heldSeatIds {st : St} {now : Int} {sh i : Nat} :
    i ∈ heldSeatIds st now sh ↔
      ∃ h ∈ st.holds, h.showtime_id = sh ∧ now < h.expires_at ∧
        h.seat_id = i := by
  simp only [heldSeatIds, List.mem_map, List.mem_filter, Bool.and_eq_true,
    decide_eq_true_eq, liveAt]
  tauto

lemma booked_ne_held : ("booked" : String) ≠ "held" := by decide

lemma booked_ne_available : ("booked" : String) ≠ "available" := by decide

lemma held_ne_available : ("held" : String) ≠ "available" := by decide

/-- C8: reading the seat statuses writes nothing, so a second read of the
same showtime from the state left by the first read yields the identical
sequence. -/
theorem get_seats_idempotent (st : St) (now : Int) (sh : Nat) :
    (get_seats st now sh).2 = st ∧
    (get_seats (get_seats st now sh).2 now sh).1 = (get_seats st now sh).1 :=
  ⟨rfl, rfl⟩

/-- C2 (amended): get_seats returns exactly one entry per row of the whole
seats table, in table order, regardless of the auditorium of the showtime
(main.py line 73 queries the Seat table with no auditorium filter). -/
theorem get_seats_covers_all_seats (st : St) (now : Int) (sh : Nat) :
    ((get_seats st now sh).1).map SeatStatusOut.id = st.seats.map Seat.id := by
  simp [get_seats, List.map_map, Function.comp]

/-- C2 (counterexample): showtime 5 plays in auditorium 1, seat 10 belongs
to auditorium 2, yet get_seats for showtime 5 returns an entry for seat 10:
the claim that no entries are returned for seats of other auditoriums fails
on the code. -/
theorem get_seats_returns_foreign_auditorium_seat :
    (∃ s ∈ st0.showtimes, s.id = 5 ∧ s.auditorium_id = 1) ∧
    (∃ s ∈ st0.seats, s.id = 10 ∧ s.auditorium_id = 2) ∧
    (∃ e ∈ (get_seats st0 0 5).1, e.id = 10) := by decide

/-- C3: every entry returned by get_seats is classified booked exactly when
a booked row exists for (showtime, seat) — booked wins over any live hold —
else held exactly when a live hold entry exists, else available; and the
call performs no writes. -/
theorem get_seats_status (st : St) (now : Int) (sh : Nat) :
    (get_seats st now sh).2 = st ∧
    ∀ e ∈ (get_seats st now sh).1,
      (e.status = "booked" ↔
        ∃ b ∈ st.booked_seats, b.showtime_id = sh ∧ b.seat_id = e.id) ∧
      (e.status = "held" ↔
        (¬ ∃ b ∈ st.booked_seats, b.showtime_id = sh ∧ b.seat_id = e.id) ∧
        ∃ h ∈ st.holds, h.showtime_id = sh ∧ now < h.expires_at ∧
          h.seat_id = e.id) ∧
      (e.status = "available" ↔
        (¬ ∃ b ∈ st.booked_seats, b.showtime_id = sh ∧ b.seat_id = e.id) ∧
        ¬ ∃ h ∈ st.holds, h.showtime_id = sh ∧ now < h.expires_at ∧
          h.seat_id = e.id) := by
  refine ⟨rfl, ?_⟩
  intro e he
  simp only [get_seats, List.mem_map] at he
  obtain ⟨s, hs, rfl⟩ := he
  have hbiff := @mem_bookedSeatIds st sh s.id
  have hhiff := @mem_heldSeatIds st now sh s.id
  by_cases hb : s.id ∈ bookedSeatIds st sh <;>
    by_cases hh : s.id ∈ heldSeatIds st now sh <;>
      simp [hb, hh, ← hbiff, ← hhiff, booked_ne_held, booked_ne_available,
        held_ne_available, booked_ne_held.symm, booked_ne_available.symm,
        held_ne_available.symm]

/-- C10: a hold request repeating a seat id fails with InvalidSeatSelection
even when every listed id names an existing seat, because the count of
fetched (distinct) rows is compared against the length of the duplicated
request list; the state is unchanged. -/
theorem hold_seats_rejects_duplicate_ids (st : St) (now ttl : Int) (sh : Nat)
    (ids : List Nat) (hseats : (st.seats.map Seat.id).Nodup)
    (hdup : ¬ ids.Nodup) (_hall : ∀ i ∈ ids, ∃ s ∈ st.seats, s.id = i) :
    hold_seats st now ttl sh ids =
      (Except.error ApiError.invalidSeatSelection, st) := by
  have hlt : (st.seats.filter (fun s => s.id ∈ ids)).length < ids.length :=
    seats_filter_length_lt_of_dup hseats hdup
  have hne : (st.seats.filter (fun s => s.id ∈ ids)).length ≠ ids.length :=
    Nat.ne_of_lt hlt
  simp only [hold_seats]
  rw [if_pos hne]

/-- Witness for C10 at a concrete input: seat 1 exists but is listed twice. -/
theorem hold_seats_rejects_duplicate_ids_witness :
    hold_seats st0 0 600 5 [1, 1] =
      (Except.error ApiError.invalidSeatSelection, st0) :=
  hold_seats_rejects_duplicate_ids st0 0 600 5 [1, 1] (by decide) (by decide)
    (by decide)

/-- Witness for C3 at a concrete entry of a concrete state. -/
theorem get_seats_status_witness :
    (({ id := 10, row_label := "A", seat_number := 1, seat_type := "regular",
        status := "available" } : SeatStatusOut) ∈ (get_seats st0 0 5).1) ∧
    ¬ ∃ b ∈ st0.booked_seats, b.showtime_id = 5 ∧ b.seat_id = 10 := by
  have h := (get_seats_status st0 0 5).2
    { id := 10, row_label := "A", seat_number := 1, seat_type := "regular",
      status := "available" } (by decide)
  exact ⟨by decide, fun hex => by simpa using (h.2.2.mp rfl).1 hex⟩

/-- Anatomy of a successful hold (main.py lines 127-148): the returned id
is the fresh reservation id, the expiry is now + ttl, the durable tables
other than reservations are untouched, the reservation row is appended, the
holds are the setex fold, and each of the three checks passed. -/
lemma hold_seats_ok_parts {st : St} {now ttl : Int} {sh : Nat}
    {ids : List Nat} {rid : Nat} {exp : Int} {st₁ : St}
    (h : hold_seats st now ttl sh ids = (Except.ok (rid, exp), st₁)) :
    rid = st.nextReservationId ∧ exp = now + ttl ∧
    st₁ = { st with
      reservations := st.reservations ++
        [{ id := st.nextReservationId, user_id := none, showtime_id := sh,
           status := "held", total_price := 0,
           expires_at := some (now + ttl) }]
      holds := ids.foldl
        (fun hs sid => redisSetex hs now sh sid ttl st.nextReservationId)
        st.holds
      nextReservationId := st.nextReservationId + 1 } ∧
    (∀ i ∈ ids, redisGet st.holds now sh i = none) ∧
    (st.seats.filter (fun s => s.id ∈ ids)).length = ids.length ∧
    st.booked_seats.filter
      (fun b => b.showtime_id = sh && b.seat_id ∈ ids) = [] := by
  simp only [hold_seats] at h
  split_ifs at h with c1 c2 c3
  · exact absurd h (by simp)
  · exact absurd h (by simp)
  · exact absurd h (by simp)
  · simp only [Prod.mk.injEq, Except.ok.injEq] at h
    obtain ⟨⟨hrid, hexp⟩, hst⟩ := h
    refine ⟨hrid.symm, hexp.symm, hst ▸ rfl, ?_, not_ne_iff.mp c1, not_ne_iff.mp c2⟩
    intro i hi
    rw [← Option.not_isSome_iff_eq_none]
    intro hcon
    exact c3 (List.any_eq_true.mpr ⟨i, hi, hcon⟩)

/-- Failed holds leave the state untouched (every error branch of main.py
lines 109-125 raises before any write). -/
lemma hold_seats_error_state (st : St) (now ttl : Int) (sh : Nat)
    (ids : List Nat) (e : ApiError)
    (h : (hold_seats st now ttl sh ids).1 = Except.error e) :
    (hold_seats st now ttl sh ids).2 = st := by
  simp only [hold_seats] at h ⊢
  split_ifs at h ⊢ <;> simp_all

/-- C5: when every precondition passes, hold_seats creates exactly one
reservation row with status held and expires_at = now + ttl, returns its id
and expiry, and writes exactly one hold entry per requested seat id keyed by
(showtime_id, seat_id) with that TTL and the new reservation id as value —
seats not requested keep their previous entries, and the seat and booked
tables are untouched; when any precondition fails, nothing is written. -/
theorem hold_seats_success (st : St) (now ttl : Int) (sh : Nat)
    (ids : List Nat) :
    (∀ rid exp st₁,
      hold_seats st now ttl sh ids = (Except.ok (rid, exp), st₁) →
      rid = st.nextReservationId ∧ exp = now + ttl ∧
      st₁.reservations = st.reservations ++
        [{ id := rid, user_id := none, showtime_id := sh, status := "held",
           total_price := 0, expires_at := some (now + ttl) }] ∧
      (∀ i ∈ ids,
        st₁.holds.filter (fun h => h.showtime_id = sh && h.seat_id = i) =
          [{ showtime_id := sh, seat_id := i, value := rid,
             expires_at := now + ttl }]) ∧
      (∀ i, i ∉ ids →
        st₁.holds.filter (fun h => h.showtime_id = sh && h.seat_id = i) =
          st.holds.filter (fun h => h.showtime_id = sh && h.seat_id = i)) ∧
      st₁.booked_seats = st.booked_seats ∧ st₁.seats = st.seats) ∧
    (∀ e, (hold_seats st now ttl sh ids).1 = Except.error e →
      (hold_seats st now ttl sh ids).2 = st) := by
  constructor
  · intro rid exp st₁ h
    obtain ⟨hrid, hexp, hst, -, -, -⟩ := hold_seats_ok_parts h
    subst hrid hexp hst
    refine ⟨rfl, rfl, rfl, ?_, ?_, rfl, rfl⟩
    · intro i hi
      rw [filter_key_foldl_setex]
      simp [hi]
    · intro i hi
      rw [filter_key_foldl_setex]
      simp [hi]
  · exact fun e h => hold_seats_error_state st now ttl sh ids e h

/-- C4: hold_seats checks its preconditions in order — a missing seat id
fails with InvalidSeatSelection; past that check, a seat already booked for
the showtime fails with SeatsAlreadyBooked; past both, a live hold on a
requested seat fails with SeatsAlreadyHeld. Consequently, after a success
covering seat S, any second hold including S placed before the TTL lapses
cannot succeed, and fails with SeatsAlreadyHeld whenever the second request
itself passes the first two checks. -/
theorem hold_seats_check_order (st : St) (now ttl : Int) (sh : Nat)
    (ids : List Nat) (hseats : (st.seats.map Seat.id).Nodup) :
    ((∃ i ∈ ids, ∀ s ∈ st.seats, s.id ≠ i) →
      (hold_seats st now ttl sh ids).1 =
        Except.error ApiError.invalidSeatSelection) ∧
    ((hold_seats st now ttl sh ids).1 ≠
        Except.error ApiError.invalidSeatSelection →
      (∃ b ∈ st.booked_seats, b.showtime_id = sh ∧ b.seat_id ∈ ids) →
      (hold_seats st now ttl sh ids).1 =
        Except.error ApiError.seatsAlreadyBooked) ∧
    ((hold_seats st now ttl sh ids).1 ≠
        Except.error ApiError.invalidSeatSelection →
      (hold_seats st now ttl sh ids).1 ≠
        Except.error ApiError.seatsAlreadyBooked →
      (∃ i ∈ ids, ∃ h ∈ st.holds,
        h.showtime_id = sh ∧ h.seat_id = i ∧ now < h.expires_at) →
      (hold_seats st now ttl sh ids).1 =
        Except.error ApiError.seatsAlreadyHeld) ∧
    (∀ rid exp st₁,
      hold_seats st now ttl sh ids = (Except.ok (rid, exp), st₁) →
      ∀ S ∈ ids, ∀ now2 ttl2 : Int, ∀ ids2 : List Nat,
        S ∈ ids2 → now2 < now + ttl →
        (∀ r, (hold_seats st₁ now2 ttl2 sh ids2).1 ≠ Except.ok r) ∧
        ((ids2.Nodup ∧ (∀ i ∈ ids2, ∃ s ∈ st.seats, s.id = i) ∧
          ¬ ∃ b ∈ st.booked_seats, b.showtime_id = sh ∧ b.seat_id ∈ ids2) →
          (hold_seats st₁ now2 ttl2 sh ids2).1 =
            Except.error ApiError.seatsAlreadyHeld)) := by
  refine ⟨?_, ?_, ?_, ?_⟩
  · rintro ⟨i, hi, hmiss⟩
    have hlt := seats_filter_length_lt_of_missing hseats hi hmiss
    simp only [hold_seats]
    rw [if_pos (Nat.ne_of_lt hlt)]
  · intro h1 hex
    simp only [hold_seats] at h1 ⊢
    split_ifs at h1 ⊢ with c1 c2
    · exact absurd rfl h1
    · rfl
    · obtain ⟨b, hb, hsh, hmem⟩ := hex
      exact absurd (List.ne_nil_of_mem (List.mem_filter.mpr
        ⟨hb, by simp [hsh, hmem]⟩)) c2
    · obtain ⟨b, hb, hsh, hmem⟩ := hex
      exact absurd (List.ne_nil_of_mem (List.mem_filter.mpr
        ⟨hb, by simp [hsh, hmem]⟩)) c2
  · intro h1 h2 hex
    simp only [hold_seats] at h1 h2 ⊢
    split_ifs at h1 h2 ⊢ with c1 c2 c3
    · exact absurd rfl h1
    · exact absurd rfl h2
    · rfl
    · obtain ⟨i, hi, he, hmem, hsh, hsid, hlive⟩ := hex
      refine absurd (List.any_eq_true.mpr ⟨i, hi, ?_⟩) c3
      unfold redisGet
      rw [Option.isSome_map']
      exact List.find?_isSome.mpr
        ⟨he, hmem, by simp [hsh, hsid, liveAt, hlive]⟩
  · intro rid exp st₁ h S hS now2 ttl2 ids2 hS2 hlivewin
    obtain ⟨hrid, hexp, hst, -, -, -⟩ := hold_seats_ok_parts h
    subst hrid hexp hst
    have hget : redisGet
        (ids.foldl
          (fun hs sid => redisSetex hs now sh sid ttl st.nextReservationId)
          st.holds) now2 sh S = some st.nextReservationId := by
      rw [redisGet_foldl_setex]
      simp [hS, hlivewin]
    constructor
    · rintro ⟨r1, r2⟩ hok
      have heq : hold_seats
          { st with
            reservations := st.reservations ++
              [{ id := st.nextReservationId, user_id := none,
                 showtime_id := sh, status := "held", total_price := 0,
                 expires_at := some (now + ttl) }]
            holds := ids.foldl
              (fun hs sid =>
                redisSetex hs now sh sid ttl st.nextReservationId) st.holds
            nextReservationId := st.nextReservationId + 1 }
          now2 ttl2 sh ids2 =
          (Except.ok (r1, r2),
           (hold_seats
             { st with
               reservations := st.reservations ++
                 [{ id := st.nextReservationId, user_id := none,
                    showtime_id := sh, status := "held", total_price := 0,
                    expires_at := some (now + ttl) }]
               holds := ids.foldl
                 (fun hs sid =>
                   redisSetex hs now sh sid ttl st.nextReservationId) st.holds
               nextReservationId := st.nextReservationId + 1 }
             now2 ttl2 sh ids2).2) := by
        rw [← hok]
      obtain ⟨-, -, -, hnone, -, -⟩ := hold_seats_ok_parts heq
      rw [hnone S hS2] at hget
      exact Option.noConfusion hget
    · rintro ⟨hnd2, hall2, hnb2⟩
      have hlen : ((st.seats.filter (fun s => s.id ∈ ids2)).length =
          ids2.length) :=
        seats_filter_length_eq hseats hnd2 hall2
      have hfilter : st.booked_seats.filter
          (fun b => b.showtime_id = sh && b.seat_id ∈ ids2) = [] := by
        rw [List.filter_eq_nil_iff]
        intro b hb
        simp only [Bool.and_eq_true, decide_eq_true_eq, not_and]
        intro hbsh hbmem
        exact hnb2 ⟨b, hb, hbsh, by simpa using hbmem⟩
      simp only [hold_seats]
      rw [if_neg (not_ne_iff.mpr hlen), if_neg (not_ne_iff.mpr hfilter),
        if_pos (List.any_eq_true.mpr ⟨S, hS2, by rw [hget]; rfl⟩)]

/-- With distinct reservation ids (the primary key of the reservations
table), the lookup of main.py lines 154-157 finds exactly the row with the
requested id when that row is held. -/
lemma find?_reservation_unique {l : List Reservation} {rid : Nat}
    {r : Reservation} (hn : (l.map Reservation.id).Nodup) (hmem : r ∈ l)
    (hid : r.id = rid) (hheld : r.status = "held") :
    l.find? (fun x => x.id = rid && x.status = "held") = some r := by
  induction l with
  | nil => cases hmem
  | cons a t ih =>
    rw [List.map_cons, List.nodup_cons] at hn
    rcases List.mem_cons.mp hmem with rfl | hmem'
    · exact List.find?_cons_of_pos _ (by simp [hid, hheld])
    · have hna : ¬((fun x => decide (x.id = rid) &&
          decide (x.status = "held")) a = true) := by
        intro hpred
        simp only [Bool.and_eq_true, decide_eq_true_eq] at hpred
        have hae : a.id = r.id := by rw [hpred.1, hid]
        exact hn.1 (hae ▸ List.mem_map.mpr ⟨r, hmem', rfl⟩)
      exact (List.find?_cons_of_neg t hna).trans (ih hn.2 hmem')

/-- Redis keys are unique, so the seats recovered from the hold-index scan
are pairwise distinct. -/
lemma heldSeatsOf_nodup {st : St} {now : Int} {sh rid : Nat}
    (hn : (st.holds.map holdKey).Nodup) :
    (heldSeatsOf st now sh rid).Nodup := by
  unfold heldSeatsOf
  set lf := st.holds.filter
    (fun h => h.showtime_id = sh && liveAt now h && h.value = rid) with hlf
  have h1 : (lf.map holdKey).Nodup :=
    List.Nodup.sublist (List.Sublist.map holdKey
      (List.filter_sublist st.holds)) hn
  have h2 : ∀ h ∈ lf, h.showtime_id = sh := by
    intro h hh
    have hc := (List.mem_filter.mp hh).2
    simp only [Bool.and_eq_true, decide_eq_true_eq] at hc
    exact hc.1.1
  have h3 : lf.map holdKey =
      (lf.map (fun h => h.seat_id)).map (fun s => (sh, s)) := by
    rw [List.map_map]
    exact List.map_congr_left (fun h hh => by
      simp [holdKey, Function.comp, h2 h hh])
  rw [h3] at h1
  exact List.Nodup.of_map _ h1

/-- C6: confirm_reservation fails with ReservationNotFound exactly when no
reservation row has the requested id with status held; and when the row is
found but no live hold entry under its showtime carries the reservation id
as value, it fails with HoldExpired — in both cases the state (booked rows
and reservation statuses included) is unchanged. -/
theorem confirm_failure_cases (st : St) (now : Int) (rid : Nat) :
    (((confirm_reservation st now rid).1 =
        Except.error ApiError.reservationNotFound ↔
      ∀ r ∈ st.reservations, ¬(r.id = rid ∧ r.status = "held")) ∧
    ((confirm_reservation st now rid).1 =
        Except.error ApiError.reservationNotFound →
      (confirm_reservation st now rid).2 = st)) ∧
    (∀ resv ∈ st.reservations,
      (st.reservations.map Reservation.id).Nodup →
      resv.id = rid → resv.status = "held" →
      (∀ h ∈ st.holds, ¬(h.showtime_id = resv.showtime_id ∧
        now < h.expires_at ∧ h.value = rid)) →
      confirm_reservation st now rid =
        (Except.error ApiError.holdExpired, st)) := by
  constructor
  · cases hf : st.reservations.find?
        (fun x => x.id = rid && x.status = "held") with
    | none =>
      have hall := List.find?_eq_none.mp hf
      constructor
      · constructor
        · intro _ r hr hcon
          exact absurd (by simp [hcon.1, hcon.2]) (hall r hr)
        · intro _
          simp [confirm_reservation, hf]
      · intro _
        simp [confirm_reservation, hf]
    | some resv =>
      have hpred := List.find?_some hf
      have hmem := List.mem_of_find?_eq_some hf
      simp only [Bool.and_eq_true, decide_eq_true_eq] at hpred
      refine ⟨⟨?_, ?_⟩, ?_⟩
      · intro hres
        exfalso
        simp only [confirm_reservation, hf] at hres
        split_ifs at hres <;> simp_all
      · intro hres
        exact absurd ⟨hpred.1, hpred.2⟩ (hres resv hmem)
      · intro hres
        exfalso
        simp only [confirm_reservation, hf] at hres
        split_ifs at hres <;> simp_all
  · intro resv hmem hn hid hheld hnohold
    have hf := find?_reservation_unique hn hmem hid hheld
    have hempty : heldSeatsOf st now resv.showtime_id rid = [] := by
      unfold heldSeatsOf
      rw [List.filter_eq_nil_iff.mpr, List.map_nil]
      intro h hh
      simp only [Bool.and_eq_true, decide_eq_true_eq, liveAt, not_and]
      intro h1 h2
      exact hnohold h hh ⟨h1.1, h1.2, h2⟩
    simp only [confirm_reservation, hf, hempty]
    rfl

/-- C7: once the reservation is found held and the scan is non-empty, the
insert batch is all-or-nothing under the (showtime, seat) uniqueness
constraint: if any scanned seat already has a booked row for the showtime,
the whole transaction rolls back — SeatConflict, no row persisted, status
still held; otherwise every row is persisted, the reservation becomes
confirmed in the same commit, and the corresponding hold entries are
deleted afterwards. -/
theorem confirm_transaction (st : St) (now : Int) (rid : Nat)
    (resv : Reservation) (hmem : resv ∈ st.reservations) (hid : resv.id = rid)
    (hheld : resv.status = "held")
    (hrn : (st.reservations.map Reservation.id).Nodup)
    (hhk : (st.holds.map holdKey).Nodup)
    (hnon : heldSeatsOf st now resv.showtime_id rid ≠ []) :
    ((∃ sid ∈ heldSeatsOf st now resv.showtime_id rid,
        ∃ b ∈ st.booked_seats, b.showtime_id = resv.showtime_id ∧
          b.seat_id = sid) →
      confirm_reservation st now rid =
        (Except.error ApiError.seatConflict, st)) ∧
    ((¬ ∃ sid ∈ heldSeatsOf st now resv.showtime_id rid,
        ∃ b ∈ st.booked_seats, b.showtime_id = resv.showtime_id ∧
          b.seat_id = sid) →
      (confirm_reservation st now rid).1 = Except.ok ("confirmed", rid) ∧
      (confirm_reservation st now rid).2.booked_seats =
        st.booked_seats ++
          (heldSeatsOf st now resv.showtime_id rid).map (fun sid =>
            { showtime_id := resv.showtime_id, seat_id := sid,
              reservation_id := rid }) ∧
      (∀ r ∈ (confirm_reservation st now rid).2.reservations,
        r.id = rid → r.status = "confirmed") ∧
      (confirm_reservation st now rid).2.holds =
        st.holds.filter (fun h => !(h.showtime_id = resv.showtime_id &&
          h.seat_id ∈ heldSeatsOf st now resv.showtime_id rid))) := by
  have hf := find?_reservation_unique hrn hmem hid hheld
  have hkeys : (((heldSeatsOf st now resv.showtime_id rid).map (fun sid =>
      ({ showtime_id := resv.showtime_id, seat_id := sid,
         reservation_id := rid } : BookedSeat))).map bsKey).Nodup := by
    rw [List.map_map]
    have hinj : Function.Injective
        (fun sid => ((resv.showtime_id, sid) : Nat × Nat)) := by
      intro a b hab
      simpa using congrArg Prod.snd hab
    exact (List.nodup_map_iff_inj_on (heldSeatsOf_nodup hhk)).mpr
      (fun a _ b _ hab => hinj hab)
  constructor
  · rintro ⟨sid, hsid, b, hb, hbsh, hbseat⟩
    have hbad : insertOK st.booked_seats
        ((heldSeatsOf st now resv.showtime_id rid).map (fun sid =>
          { showtime_id := resv.showtime_id, seat_id := sid,
            reservation_id := rid })) = false := by
      rw [Bool.eq_false_iff]
      intro htrue
      simp only [insertOK, Bool.and_eq_true, List.all_eq_true] at htrue
      have hrow := htrue.1 _ (List.mem_map.mpr ⟨sid, hsid, rfl⟩)
      simp only [Bool.not_eq_true', List.any_eq_false] at hrow
      have := hrow b hb
      simp only [bsKey, hbsh, hbseat, decide_eq_false_iff_not] at this
      exact this rfl
    simp only [confirm_reservation, hf]
    rw [if_neg (by simpa using hnon), if_neg (by simp [hbad])]
  · intro hnoc
    have hgood : insertOK st.booked_seats
        ((heldSeatsOf st now resv.showtime_id rid).map (fun sid =>
          { showtime_id := resv.showtime_id, seat_id := sid,
            reservation_id := rid })) = true := by
      simp only [insertOK, Bool.and_eq_true, List.all_eq_true]
      refine ⟨?_, by simpa using hkeys⟩
      intro row hrow
      obtain ⟨sid, hsid, rfl⟩ := List.mem_map.mp hrow
      simp only [Bool.not_eq_true', List.any_eq_false]
      intro b hb
      by_contra hcon
      simp only [Bool.not_eq_false, decide_eq_true_eq, bsKey,
        Prod.mk.injEq] at hcon
      exact absurd ⟨sid, hsid, b, hb, hcon.1, hcon.2⟩ hnoc
    simp only [confirm_reservation, hf]
    rw [if_neg (by simpa using hnon), if_pos hgood]
    refine ⟨rfl, rfl, ?_, rfl⟩
    intro r hr hrid
    simp only [List.mem_map] at hr
    obtain ⟨r0, hr0, rfl⟩ := hr
    by_cases hc : r0.id = rid
    · simp [hc]
    · simp only [if_neg hc] at hrid ⊢
      exact absurd hrid hc

/-- C9: create_showtime rejects (returns none) exactly when some existing
showtime of the same auditorium satisfies starts_at < new.ends_at and
ends_at > new.starts_at; update_showtime of an existing row likewise,
excluding the row being updated; and both operations preserve the
no-overlap invariant. -/
theorem showtime_overlap_discipline (st : St) (q : ShowtimeCreate)
    (sid : Nat) :
    ((create_showtime st q).1 = none ↔
      ∃ s ∈ st.showtimes, s.auditorium_id = q.auditorium_id ∧
        s.starts_at < q.ends_at ∧ s.ends_at > q.starts_at) ∧
    ((∃ s ∈ st.showtimes, s.id = sid) →
      ((update_showtime st sid q).1 = none ↔
        ∃ s ∈ st.showtimes, s.id ≠ sid ∧
          s.auditorium_id = q.auditorium_id ∧
          s.starts_at < q.ends_at ∧ s.ends_at > q.starts_at)) ∧
    (ShowtimesOverlapFree st.showtimes →
      ShowtimesOverlapFree ((create_showtime st q).2).showtimes) ∧
    ((st.showtimes.map Showtime.id).Nodup →
      ShowtimesOverlapFree st.showtimes →
      ShowtimesOverlapFree ((update_showtime st sid q).2).showtimes) := by
  refine ⟨?_, ?_, ?_, ?_⟩
  · unfold create_showtime
    by_cases hc : st.showtimes.any (fun s => overlapsReq s q)
    · rw [if_pos hc]
      simp only [true_iff]
      obtain ⟨s, hs, hov⟩ := List.any_eq_true.mp hc
      simp only [overlapsReq, Bool.and_eq_true, decide_eq_true_eq] at hov
      exact ⟨s, hs, hov.1.1, hov.1.2, hov.2⟩
    · rw [if_neg hc]
      constructor
      · intro h
        exact absurd h (by simp)
      · rintro ⟨s, hs, h1, h2, h3⟩
        exact absurd (List.any_eq_true.mpr ⟨s, hs, by
          simp only [overlapsReq, Bool.and_eq_true, decide_eq_true_eq]
          exact ⟨⟨h1, h2⟩, h3⟩⟩) hc
  · rintro ⟨s0, hs0, hids0⟩
    have hfs : (st.showtimes.find? (fun s => s.id = sid)).isSome :=
      List.find?_isSome.mpr ⟨s0, hs0, by simp [hids0]⟩
    cases hf : st.showtimes.find? (fun s => s.id = sid) with
    | none => rw [hf] at hfs; cases hfs
    | some sf =>
      simp only [update_showtime, hf]
      by_cases hc : st.showtimes.any (fun s => s.id ≠ sid && overlapsReq s q)
      · rw [if_pos hc]
        simp only [true_iff]
        obtain ⟨s, hs, hov⟩ := List.any_eq_true.mp hc
        simp only [overlapsReq, Bool.and_eq_true, decide_eq_true_eq] at hov
        exact ⟨s, hs, hov.1, hov.2.1.1, hov.2.1.2, hov.2.2⟩
      · rw [if_neg hc]
        constructor
        · intro h
          exact absurd h (by simp)
        · rintro ⟨s, hs, hne, h1, h2, h3⟩
          exact absurd (List.any_eq_true.mpr ⟨s, hs, by
            simp only [overlapsReq, Bool.and_eq_true, decide_eq_true_eq]
            exact ⟨hne, ⟨h1, h2⟩, h3⟩⟩) hc
  · intro hinv
    unfold create_showtime
    by_cases hc : st.showtimes.any (fun s => overlapsReq s q)
    · rw [if_pos hc]
      exact hinv
    · rw [if_neg hc]
      unfold ShowtimesOverlapFree at hinv ⊢
      rw [List.pairwise_append]
      refine ⟨hinv, List.pairwise_singleton _ _, ?_⟩
      intro a ha b hb
      rw [List.mem_singleton] at hb
      subst hb
      intro haud hov
      exact hc (List.any_eq_true.mpr ⟨a, ha, by
        simp only [overlapsReq, Bool.and_eq_true, decide_eq_true_eq]
        exact ⟨⟨by simpa using haud, hov.1⟩, hov.2⟩⟩)
  · intro hids hinv
    simp only [update_showtime]
    cases hf : st.showtimes.find? (fun s => s.id = sid) with
    | none => exact hinv
    | some sf =>
      by_cases hc : st.showtimes.any (fun s => s.id ≠ sid && overlapsReq s q)
      · rw [if_pos hc]
        exact hinv
      · rw [if_neg hc]
        unfold ShowtimesOverlapFree at hinv ⊢
        rw [List.pairwise_map]
        have hpair : st.showtimes.Pairwise (fun a b => a.id ≠ b.id) :=
          List.pairwise_map.mp hids
        have hno : ∀ b ∈ st.showtimes, b.id ≠ sid →
            ¬(b.auditorium_id = q.auditorium_id ∧
              b.starts_at < q.ends_at ∧ b.ends_at > q.starts_at) := by
          intro b hb hbne hcon
          exact hc (List.any_eq_true.mpr ⟨b, hb, by
            simp only [overlapsReq, Bool.and_eq_true, decide_eq_true_eq]
            exact ⟨hbne, ⟨hcon.1, hcon.2.1⟩, hcon.2.2⟩⟩)
        refine List.Pairwise.imp_of_mem ?_
          (List.pairwise_and_iff.mpr ⟨hinv, hpair⟩)
        rintro a b ha hb ⟨hR, hne⟩
        by_cases hA : a.id = sid <;> by_cases hB : b.id = sid
        · exact absurd (hA.trans hB.symm) hne
        · simp only [hA, if_true, hB, if_false]
          intro haud hov
          exact hno b hb hB ⟨haud.symm, hov.2, hov.1⟩
        · simp only [hA, if_false, hB, if_true]
          intro haud hov
          exact hno a ha hA ⟨haud, hov.1, hov.2⟩
        · simp only [hA, if_false, hB]
          exact hR

/-- hold_seats never writes the booked_seats table. -/
lemma hold_seats_booked_eq (st : St) (now ttl : Int) (sh : Nat)
    (ids : List Nat) :
    ((hold_seats st now ttl sh ids).2).booked_seats = st.booked_seats := by
  simp only [hold_seats]
  split_ifs <;> rfl

/-- create_showtime never writes the booked_seats table. -/
lemma create_showtime_booked_eq (st : St) (q : ShowtimeCreate) :
    ((create_showtime st q).2).booked_seats = st.booked_seats := by
  simp only [create_showtime]
  split_ifs <;> rfl

/-- update_showtime never writes the booked_seats table. -/
lemma update_showtime_booked_eq (st : St) (sid : Nat) (q : ShowtimeCreate) :
    ((update_showtime st sid q).2).booked_seats = st.booked_seats := by
  simp only [update_showtime]
  cases hf : st.showtimes.find? (fun s => s.id = sid) with
  | none => rfl
  | some sf => split_ifs <;> rfl

/-- The commit of confirm_reservation preserves key uniqueness of
booked_seats: it only goes through when insertOK holds. -/
lemma confirm_preserves_unique (st : St) (now : Int) (rid : Nat)
    (h : UniqueBooked st) :
    UniqueBooked ((confirm_reservation st now rid).2) := by
  cases hf : st.reservations.find?
      (fun r => r.id = rid && r.status = "held") with
  | none =>
    simp only [confirm_reservation, hf]
    exact h
  | some resv =>
    simp only [confirm_reservation, hf]
    by_cases he : heldSeatsOf st now resv.showtime_id rid = []
    · rw [if_pos he]
      exact h
    · rw [if_neg he]
      by_cases hok : insertOK st.booked_seats
          ((heldSeatsOf st now resv.showtime_id rid).map (fun sid =>
            { showtime_id := resv.showtime_id, seat_id := sid,
              reservation_id := rid })) = true
      · rw [if_pos hok]
        unfold UniqueBooked at h ⊢
        rw [List.map_append, List.nodup_append]
        simp only [insertOK, Bool.and_eq_true, List.all_eq_true] at hok
        refine ⟨h, by simpa using hok.2, ?_⟩
        intro a ha hb
        obtain ⟨o, ho, rfl⟩ := List.mem_map.mp ha
        obtain ⟨n, hn, heq⟩ := List.mem_map.mp hb
        have hall := hok.1 n hn
        simp only [Bool.not_eq_true', List.any_eq_false] at hall
        have h2 := hall o ho
        rw [heq] at h2
        simp at h2
      · rw [if_neg hok]
        exact h

/-- With pairwise-distinct keys, at most one row matches any given
(showtime, seat) pair. -/
lemma length_filter_le_one_of_nodup_key {l : List BookedSeat}
    (h : (l.map bsKey).Nodup) (sh sid : Nat) :
    (l.filter (fun b => b.showtime_id = sh && b.seat_id = sid)).length ≤ 1 := by
  induction l with
  | nil => simp
  | cons b t ih =>
    rw [List.map_cons, List.nodup_cons] at h
    by_cases hb : b.showtime_id = sh ∧ b.seat_id = sid
    · rw [List.filter_cons_of_pos (by simp [hb.1, hb.2])]
      have hnil : t.filter
          (fun x => x.showtime_id = sh && x.seat_id = sid) = [] := by
        rw [List.filter_eq_nil_iff]
        intro x hx hpx
        simp only [Bool.and_eq_true, decide_eq_true_eq] at hpx
        exact h.1 (List.mem_map.mpr
          ⟨x, hx, by simp [bsKey, hpx.1, hpx.2, hb.1, hb.2]⟩)
      simp [hnil]
    · rw [List.filter_cons_of_neg
        (by simp only [Bool.and_eq_true, decide_eq_true_eq]; exact hb)]
      exact ih h.2

/-- Every single operation preserves the invariant. -/
lemma step_preserves_unique {st st' : St} (h : Step st st')
    (hu : UniqueBooked st) : UniqueBooked st' := by
  cases h with
  | view now sh => exact hu
  | hold now ttl sh ids =>
    unfold UniqueBooked
    rw [hold_seats_booked_eq]
    exact hu
  | confirm now rid => exact confirm_preserves_unique st now rid hu
  | screate q =>
    unfold UniqueBooked
    rw [create_showtime_booked_eq]
    exact hu
  | supdate sid q =>
    unfold UniqueBooked
    rw [update_showtime_booked_eq]
    exact hu

/-- C1: in every reachable state at most one booked_seats row exists per
(showtime, seat) pair, and every single operation — any number of
confirmations over overlapping seat sets included — preserves the
uniqueness invariant, the all-or-nothing uniqueness constraint of the
durable store being what gates the only write path into the table. -/
theorem no_double_booking :
    (∀ st, Reachable st → ∀ sh sid,
      (st.booked_seats.filter
        (fun b => b.showtime_id = sh && b.seat_id = sid)).length ≤ 1) ∧
    (∀ st st', Step st st' → UniqueBooked st → UniqueBooked st') := by
  constructor
  · intro st h sh sid
    have hu : UniqueBooked st := by
      induction h with
      | init seats showtimes => simp [UniqueBooked, initialSt]
      | step hr hs ih => exact step_preserves_unique hs ih
    exact length_filter_le_one_of_nodup_key hu sh sid
  · exact fun st st' hs hu => step_preserves_unique hs hu

/-- Witness for C1: the state reached by seeding the catalog, holding seats
1 and 2 of showtime 5, and confirming reservation 1. -/
theorem no_double_booking_witness :
    (st2.booked_seats.filter
      (fun b => b.showtime_id = 5 && b.seat_id = 1)).length ≤ 1 :=
  no_double_booking.1 st2
    (Reachable.step
      (Reachable.step (Reachable.init [seatA, seatB, seatC] [show1])
        (Step.hold st0 0 600 5 [1, 2]))
      (Step.confirm st1 10 1)) 5 1

/-- Witness for C4 at concrete inputs: after holding seats 1 and 2, a
second hold for seat 2 placed at instant 10 (inside the 600-second TTL)
fails with SeatsAlreadyHeld. -/
theorem hold_seats_check_order_witness :
    (hold_seats st1 10 600 5 [2]).1 =
      Except.error ApiError.seatsAlreadyHeld := by
  have h := (hold_seats_check_order st0 0 600 5 [1, 2] (by decide)).2.2.2
    1 600 st1 rfl 2 (by decide) 10 600 [2] (by decide) (by decide)
  exact h.2 ⟨by decide, by decide, by decide⟩

/-- Witness for C5 at concrete inputs: the successful hold of seats 1 and 2
appends exactly the expected reservation row and writes exactly one hold
entry for seat 1. -/
theorem hold_seats_success_witness :
    st1.reservations = st0.reservations ++
      [{ id := 1, user_id := none, showtime_id := 5, status := "held",
         total_price := 0, expires_at := some 600 }] ∧
    st1.holds.filter (fun h => h.showtime_id = 5 && h.seat_id = 1) =
      [{ showtime_id := 5, seat_id := 1, value := 1, expires_at := 600 }] := by
  have h := (hold_seats_success st0 0 600 5 [1, 2]).1 1 600 st1 rfl
  constructor
  · rw [h.2.2.1]
    decide
  · rw [h.2.2.2.1 1 (by decide)]
    decide

/-- Witness for C6 at concrete inputs: confirming the unknown reservation
99 fails with ReservationNotFound, and confirming reservation 1 at instant
700 — after its holds have lapsed — fails with HoldExpired, leaving the
state unchanged. -/
theorem confirm_failure_cases_witness :
    (confirm_reservation st0 0 99).1 =
      Except.error ApiError.reservationNotFound ∧
    confirm_reservation st1 700 1 =
      (Except.error ApiError.holdExpired, st1) := by
  constructor
  · exact ((confirm_failure_cases st0 0 99).1.1).mpr (by decide)
  · exact (confirm_failure_cases st1 700 1).2
      { id := 1, user_id := none, showtime_id := 5, status := "held",
        total_price := 0, expires_at := some 600 }
      (by decide) (by decide) (by decide) (by decide) (by decide)

/-- Witness for C7 at concrete inputs: confirming reservation 1 at instant
10 while both holds are live succeeds. -/
theorem confirm_transaction_witness :
    (confirm_reservation st1 10 1).1 = Except.ok ("confirmed", 1) := by
  have h := (confirm_transaction st1 10 1
    { id := 1, user_id := none, showtime_id := 5, status := "held",
      total_price := 0, expires_at := some 600 }
    (by decide) (by decide) (by decide) (by decide) (by decide)
    (by decide)).2 (by decide)
  exact h.1

/-- Witness for C9 at concrete inputs: a request overlapping showtime 5 in
auditorium 1 is rejected, and the seeded catalog satisfies the invariant
preserved by create_showtime. -/
theorem showtime_overlap_discipline_witness :
    (create_showtime st0
      { movie_id := 1, auditorium_id := 1, starts_at := 50, ends_at := 150,
        base_price := 5 }).1 = none ∧
    (update_showtime st0 5
      { movie_id := 1, auditorium_id := 1, starts_at := 50, ends_at := 150,
        base_price := 5 }).1 ≠ none := by
  constructor
  · exact (showtime_overlap_discipline st0
      { movie_id := 1, auditorium_id := 1, starts_at := 50, ends_at := 150,
        base_price := 5 } 5).1.mpr
      ⟨show1, by decide, by decide, by decide, by decide⟩
  · intro hnone
    have h := ((showtime_overlap_discipline st0
      { movie_id := 1, auditorium_id := 1, starts_at := 50, ends_at := 150,
        base_price := 5 } 5).2.1 ⟨show1, by decide, by decide⟩).mp hnone
    revert h
    decide

end MovieRes
